import Mathlib

/-!
Verification of the GraphRAG pipeline in `graph_rag.py`.

The Python code is shallow-embedded below.  External collaborators
(Neo4j driver, Pinecone index, Ollama chat/embedding endpoints, hashlib)
are modelled as explicit parameters: a call that can fail is an
`Except`/`Option` value, a query oracle is a function argument.  Machine
floats are modelled by `ℚ` (the claims under study concern lengths,
control flow and exact arithmetic shape, not rounding).
-/

namespace GraphRag

/-! ### Python string primitives -/

/-- The whitespace characters recognised by Python's `str.split()` /
`str.strip()` (ASCII subset, which covers all inputs considered here). -/
def isPySpace (c : Char) : Bool :=
  c = ' ' || c = '\t' || c = '\n' || c = '\r' || c = '\x0b' || c = '\x0c'

/-- Worker for `pySplit`: accumulates the current word (reversed). -/
def splitWordsAux : List Char → List Char → List (List Char)
  | [], acc => if acc = [] then [] else [acc.reverse]
  | c :: cs, acc =>
    if isPySpace c then
      if acc = [] then splitWordsAux cs [] else acc.reverse :: splitWordsAux cs []
    else splitWordsAux cs (c :: acc)

/-- Python `text.split()`: split on whitespace runs, dropping empty pieces. -/
def pySplit (s : String) : List String :=
  (splitWordsAux s.toList []).map String.mk

/-- Python `s.strip()`: remove leading and trailing whitespace. -/
def pyStrip (s : String) : String :=
  String.mk (((s.toList.dropWhile isPySpace).reverse.dropWhile isPySpace).reverse)

/-- Clamp one Python slice index into `[0, n]` (negative indices count from
the end, as in Python list/str slicing). -/
def sliceIdx (k : Int) (n : Nat) : Nat :=
  if k < 0 then ((n : Int) + k).toNat else min k.toNat n

/-- Python slice `xs[a:b]`. -/
def pySlice {α : Type} (xs : List α) (a b : Int) : List α :=
  ((xs.drop (sliceIdx a xs.length)).take (sliceIdx b xs.length - sliceIdx a xs.length))

/-- Python `s.find(c)`: index of the first occurrence, `-1` if absent. -/
def pyFind (s : String) (c : Char) : Int :=
  match s.toList.findIdx? (· == c) with
  | some i => (i : Int)
  | none => -1

/-- Python `s.rfind(c)`: index of the last occurrence, `-1` if absent. -/
def pyRFind (s : String) (c : Char) : Int :=
  match s.toList.reverse.findIdx? (· == c) with
  | some i => ((s.toList.length - 1 - i : Nat) : Int)
  | none => -1

/-- Python string slice `s[a:b]`. -/
def pySliceStr (s : String) (a b : Int) : String :=
  String.mk (pySlice s.toList a b)

/-- Python `needle in hay` (substring containment). -/
def strContains (hay needle : String) : Bool :=
  (List.range (hay.toList.length + 1)).any
    (fun i => (hay.toList.drop i).take needle.toList.length == needle.toList)

/-- Python `s.replace(a, b)` for single characters. -/
def pyReplace (s : String) (a b : Char) : String :=
  String.mk (s.toList.map (fun c => if c = a then b else c))

/-- ASCII upper-casing of one character (Python `str.upper`, restricted to
the ASCII range that all sanitised labels live in). -/
def pyCharUpper (c : Char) : Char :=
  if 97 ≤ c.toNat ∧ c.toNat ≤ 122 then Char.ofNat (c.toNat - 32) else c

/-- Python `s.upper()` (ASCII). -/
def pyUpper (s : String) : String :=
  String.mk (s.toList.map pyCharUpper)

/-- ASCII lower-casing of one character (Python `str.lower`, ASCII range). -/
def pyCharLower (c : Char) : Char :=
  if 65 ≤ c.toNat ∧ c.toNat ≤ 90 then Char.ofNat (c.toNat + 32) else c

/-- Python `s.lower()` (ASCII). -/
def pyLower (s : String) : String :=
  String.mk (s.toList.map pyCharLower)

/-! ### `chunk_text_with_pages` (graph_rag.py lines 54-74) -/

/-- One element of `pages_data` as produced by `extract_text_from_pdf`. -/
structure Page where
  text : String
  page_num : Int
deriving DecidableEq, Repr

/-- One element of the `chunks` list built by `chunk_text_with_pages`. -/
structure Chunk where
  text : String
  page_num : Int
deriving DecidableEq, Repr

/-- The inner `while i < len(words)` loop of `chunk_text_with_pages`,
with explicit fuel: `none` means the given fuel was exhausted before the
loop ended (in particular the loop diverges iff every fuel yields `none`).
`i` is an `Int` exactly as Python's loop counter is. -/
def chunkLoop (words : List String) (chunk_size overlap : Nat) (page_num : Int) :
    Int → Nat → Option (List Chunk)
  | _, 0 => none
  | i, fuel + 1 =>
    if i < (words.length : Int) then
      match chunkLoop words chunk_size overlap page_num
          (i + ((chunk_size : Int) - (overlap : Int))) fuel with
      | none => none
      | some rest =>
        if 50 < (pyStrip (String.intercalate " "
            (pySlice words i (i + (chunk_size : Int))))).length then
          some (Chunk.mk (String.intercalate " "
            (pySlice words i (i + (chunk_size : Int)))) page_num :: rest)
        else some rest
    else
      some []

/-- `chunk_text_with_pages(pages_data, chunk_size, overlap)`: the outer
`for page_data in pages_data` loop, concatenating each page's chunks. -/
def chunk_text_with_pages : List Page → Nat → Nat → Nat → Option (List Chunk)
  | [], _, _, _ => some []
  | p :: ps, chunk_size, overlap, fuel =>
    match chunkLoop (pySplit p.text) chunk_size overlap p.page_num 0 fuel,
        chunk_text_with_pages ps chunk_size overlap fuel with
    | some a, some b => some (a ++ b)
    | _, _ => none

/-- A page text whose two words are separated by a DOUBLE space: its
trimmed form (62 characters) differs from the single-space re-joining of
its words (61 characters). -/
def doubleSpacedPage : String :=
  "aaaaaaaaaaaaaaaaaaaaaaaaaaaaaa  bbbbbbbbbbbbbbbbbbbbbbbbbbbbbb"

/-! ### `extract_entities_with_llm` (graph_rag.py lines 76-106) -/

/-- One element of the extracted `entities` list.  `name` is accessed
unconditionally (`entity['name']`); `type` and `description` are read with
`dict.get` defaults, hence optional. -/
structure Entity where
  name : String
  type : Option String
  description : Option String
deriving DecidableEq, Repr

/-- One element of the extracted `relationships` list; all three keys are
accessed unconditionally (`rel['from']`, `rel['to']`, `rel['type']`). -/
structure Relationship where
  «from» : String
  «to» : String
  type : String
deriving DecidableEq, Repr

/-- The extraction result `{"entities": [...], "relationships": [...]}`. -/
structure Extraction where
  entities : List Entity
  relationships : List Relationship
deriving DecidableEq, Repr

/-- The empty result `{"entities": [], "relationships": []}`. -/
def emptyExtraction : Extraction := ⟨[], []⟩

/-- `extract_entities_with_llm(text)`.  The Ollama chat call is modelled by
its outcome `chat` (`.error` = the client raised, caught by the `except`
branch; `.ok content` = `response['message']['content']`), and `json.loads`
composed with reading the parsed JSON is modelled by `loads` (`none` = the
parse raised `JSONDecodeError`, likewise caught). -/
def extract_entities_with_llm (chat : Except String String)
    (loads : String → Option Extraction) : Extraction :=
  match chat with
  | .error _ => emptyExtraction
  | .ok content =>
    let start := pyFind content '{'
    let stop := pyRFind content '}' + 1
    if 0 ≤ start ∧ start < stop then
      match loads (pySliceStr content start stop) with
      | some result => result
      | none => emptyExtraction
    else emptyExtraction

/-- The failure situations of `extract_entities_with_llm`: the model call
raised, or the reply has no `{`...`}` delimited substring, or the JSON
parse of that substring raised. -/
def extractionFailure (chat : Except String String)
    (loads : String → Option Extraction) : Prop :=
  (∃ e, chat = .error e) ∨
  (∃ content, chat = .ok content ∧
    ¬ (0 ≤ pyFind content '{' ∧ pyFind content '{' < pyRFind content '}' + 1)) ∨
  (∃ content, chat = .ok content ∧
    loads (pySliceStr content (pyFind content '{') (pyRFind content '}' + 1)) = none)

/-! ### `store_in_neo4j` (graph_rag.py lines 108-147) -/

/-- The final guard of the entity-type sanitisation (lines 116-117):
default to `Entity` when the string is empty or does not start with a
letter (`not entity_type or not entity_type[0].isalpha()`). -/
def entityTypeDefault (et : String) : String :=
  match et.toList with
  | [] => "Entity"
  | c :: _ => if ¬ c.isAlpha then "Entity" else et

/-- Entity-type sanitisation inlined in the entity loop of `store_in_neo4j`
(lines 113-117): apply the `.get` default, cut at the first `|` and strip,
then default to `Entity` when empty or not starting with a letter. -/
def sanitize_entity_type (t : Option String) : String :=
  entityTypeDefault
    (if (t.getD "Entity").toList.contains '|'
     then pyStrip (String.mk ((t.getD "Entity").toList.takeWhile (· ≠ '|')))
     else t.getD "Entity")

/-- A character that cannot break out of a schema label position: not a
space, not a pipe, and not a lowercase ASCII letter (used to state what
`sanitize_rel_type` guarantees about its output). -/
def relLabelCharOK (c : Char) : Bool :=
  !(c == ' ') && !(c == '|') && !(decide (97 ≤ c.toNat) && decide (c.toNat ≤ 122))

/-- Relationship-type sanitisation inlined in the relationship loop of
`store_in_neo4j` (lines 133-135): replace spaces and pipes by underscores,
upper-case, and default to `RELATED_TO` when empty or shorter than 2. -/
def sanitize_rel_type (t : String) : String :=
  let rt := pyUpper (pyReplace (pyReplace t ' ' '_') '|' '_')
  if rt = "" ∨ rt.length < 2 then "RELATED_TO" else rt

/-- A string whose first character is alphabetic (the shape the entity-type
filter checks with `entity_type[0].isalpha()`). -/
def startsAlpha (s : String) : Prop :=
  match s.toList with
  | [] => False
  | c :: _ => c.isAlpha = true

/-- Python dict assignment `d[k] = v` for the in-memory `entity_ids` map. -/
def dictSet (d : List (String × String)) (k v : String) : List (String × String) :=
  if d.any (fun kv => kv.1 = k) then
    d.map (fun kv => if kv.1 = k then (k, v) else kv)
  else d ++ [(k, v)]

/-- Python `d.get(k)` for the `entity_ids` map (`none` = key absent). -/
def dictGet (d : List (String × String)) (k : String) : Option String :=
  (d.find? (fun kv => kv.1 = k)).map (fun kv => kv.2)

/-- The entity loop of `store_in_neo4j`: each `MERGE` round-trip is the
oracle `mergeEntity label name description`, whose `.error` outcome is an
uncaught driver exception and whose `.ok none` outcome is
`result.single()` returning no record (then no id is recorded). -/
def buildEntityIds (mergeEntity : String → String → String → Except String (Option String)) :
    List Entity → List (String × String) → Except String (List (String × String))
  | [], acc => .ok acc
  | e :: es, acc =>
    match mergeEntity (sanitize_entity_type e.type) e.name (e.description.getD "") with
    | .error err => .error err
    | .ok none => buildEntityIds mergeEntity es acc
    | .ok (some id) => buildEntityIds mergeEntity es (dictSet acc e.name id)

/-- One attempted `MERGE (a)-[r:...]->(b)` edge creation. -/
structure EdgeAttempt where
  from_id : String
  to_id : String
  rel_type : String
deriving DecidableEq, Repr

/-- The body of the relationship loop for a single `rel`: resolve both
endpoints through `entity_ids`; Python's `if from_id and to_id` is truthy
only when both lookups succeed with a non-empty id string.  `none` means
the relationship is skipped with no edge attempt. -/
def relAttempt (entity_ids : List (String × String)) (r : Relationship) :
    Option EdgeAttempt :=
  match dictGet entity_ids r.«from», dictGet entity_ids r.«to» with
  | some f, some t =>
    if f ≠ "" ∧ t ≠ "" then some ⟨f, t, sanitize_rel_type r.type⟩ else none
  | _, _ => none

/-- The relationship loop of `store_in_neo4j`: every surviving relationship
is attempted through the `runEdge` oracle; a `.error` outcome is caught by
the `try/except` and only recorded (logged), never aborting the loop. -/
def storeRelationships (entity_ids : List (String × String))
    (rels : List Relationship) (runEdge : EdgeAttempt → Except String Unit) :
    List (EdgeAttempt × Option String) :=
  rels.filterMap (fun r =>
    (relAttempt entity_ids r).map (fun a =>
      (a, match runEdge a with | .ok _ => none | .error e => some e)))

/-- `store_in_neo4j(entities, relationships)`: entity phase then
relationship phase; returns the trace of attempted edge creations together
with any caught per-edge error message. -/
def store_in_neo4j (mergeEntity : String → String → String → Except String (Option String))
    (runEdge : EdgeAttempt → Except String Unit)
    (entities : List Entity) (relationships : List Relationship) :
    Except String (List (EdgeAttempt × Option String)) :=
  match buildEntityIds mergeEntity entities [] with
  | .error e => .error e
  | .ok entity_ids => .ok (storeRelationships entity_ids relationships runEdge)

/-! ### `generate_embedding` (graph_rag.py lines 176-209) -/

/-- Pad with zeros to 1024 components, or truncate to 1024
(lines 189-193, applied to the vector returned by the embedding model). -/
def padTruncate (embedding : List ℚ) : List ℚ :=
  if embedding.length < 1024 then
    embedding ++ List.replicate (1024 - embedding.length) 0
  else if 1024 < embedding.length then embedding.take 1024
  else embedding

/-- Value of one hexadecimal digit (`none` = not a hex digit, where
Python's `int(·, 16)` would raise).  Code points: 48-57 are `0`-`9`,
97-102 are `a`-`f`, 65-70 are `A`-`F`. -/
def hexVal (c : Char) : Option Nat :=
  if 48 ≤ c.toNat ∧ c.toNat ≤ 57 then some (c.toNat - 48)
  else if 97 ≤ c.toNat ∧ c.toNat ≤ 102 then some (c.toNat - 97 + 10)
  else if 65 ≤ c.toNat ∧ c.toNat ≤ 70 then some (c.toNat - 65 + 10)
  else none

/-- Python `int(s, 16)` on a digit string (`none` on the empty string or a
non-digit, where `int` raises). -/
def parseHex (cs : List Char) : Option Nat :=
  match cs with
  | [] => none
  | _ => cs.foldlM (fun acc c => (hexVal c).map (fun v => acc * 16 + v)) 0

/-- One component of the fallback embedding (lines 204-207):
`byte_val = int(text_hash[(i % len(text_hash)):(i % len(text_hash)) + 2], 16)`
then `(byte_val / 255.0 * 2) - 1` plus `0.01`.  `none` models an uncaught
exception (empty digest or non-hex digest character). -/
def fallbackComponent (text_hash : List Char) (i : Nat) : Option ℚ :=
  if text_hash.length = 0 then none
  else
    (parseHex (pySlice text_hash ((i % text_hash.length : Nat) : Int)
        (((i % text_hash.length : Nat) : Int) + 2))).map
      (fun byte_val => ((byte_val : ℚ) / 255 * 2 - 1) + 1 / 100)

/-- Sequence a list of optional values; `none` as soon as one is `none`
(an exception aborts the `for i in range(1024)` loop). -/
def collectSome {α : Type} : List (Option α) → Option (List α)
  | [] => some []
  | none :: _ => none
  | some v :: os =>
    match collectSome os with
    | some vs => some (v :: vs)
    | none => none

/-- The hash-based fallback embedding (lines 201-209), as a function of the
SHA-256 hex digest of the input text. -/
def fallbackEmbedding (text_hash : List Char) : Option (List ℚ) :=
  collectSome ((List.range 1024).map (fallbackComponent text_hash))

/-- `generate_embedding(text)`.  The Ollama embeddings call is modelled by
its outcome `response` (`.ok` = `response['embedding']`, `.error` = any
raised exception, caught by the `except` branch); `text_hash` is
`hashlib.sha256(text.encode()).hexdigest()` for the same text. -/
def generate_embedding (response : Except String (List ℚ)) (text_hash : List Char) :
    Option (List ℚ) :=
  match response with
  | .ok embedding => some (padTruncate embedding)
  | .error _ => fallbackEmbedding text_hash

/-- A well-formed SHA-256 hex digest: 64 hexadecimal characters. -/
def validDigest (text_hash : List Char) : Prop :=
  text_hash.length = 64 ∧ ∀ c ∈ text_hash, (hexVal c).isSome

instance (text_hash : List Char) : Decidable (validDigest text_hash) := by
  unfold validDigest; infer_instance

/-- The byte value actually read by `fallbackComponent`: the 2-character
slice starting at `i % len` — which holds only ONE hex character when
`i % len` is the digest's last position, because Python's slice does not
wrap around the end of the string. -/
def sliceByte (text_hash : List Char) (i : Nat) : Option Nat :=
  if text_hash.length = 0 then none
  else if i % text_hash.length + 1 = text_hash.length then
    hexVal (text_hash.getD (i % text_hash.length) '0')
  else
    match hexVal (text_hash.getD (i % text_hash.length) '0'),
        hexVal (text_hash.getD (i % text_hash.length + 1) '0') with
    | some a, some b => some (a * 16 + b)
    | _, _ => none

/-- Modelled from the spec's words (the claimed reading of the fallback):
each component takes 2 hex characters "cyclically, wrapping through the
digest", so at the last digest position the second character wraps to the
first one.  Kept only to compare against `fallbackComponent`, which is the
code's actual behaviour. -/
def fallbackComponentCyclic (text_hash : List Char) (i : Nat) : Option ℚ :=
  if text_hash.length = 0 then none
  else
    match hexVal (text_hash.getD (i % text_hash.length) '0'),
        hexVal (text_hash.getD ((i % text_hash.length + 1) % text_hash.length) '0') with
    | some a, some b => some (((a * 16 + b : Nat) : ℚ) / 255 * 2 - 1 + 1 / 100)
    | _, _ => none

/-- A concrete well-formed digest: the SHA-256 hex digest of the empty
string, `hashlib.sha256(b"").hexdigest()`. -/
def digestOfEmptyString : List Char :=
  "e3b0c44298fc1c149afbf4c8996fb92427ae41e4649b934ca495991b7852b855".toList

/-! ### `answer_question` (graph_rag.py lines 235-333) -/

/-- One Pinecone match, with the metadata fields read by
`answer_question` (defaults from `metadata.get` already applied:
`text` defaults to `''`, `page_num` to `0`, and `original_filename` to
`doc_id` or the fixed unknown-source string). -/
structure QMatch where
  text : String
  original_filename : String
  page_num : Int
deriving DecidableEq, Repr

/-- The fixed "no information found" message (line 260). -/
def noInfoMsg : String :=
  "Verilmi≈ü s…ôn…ôdl…ôrd…ô bu sual √ºzr…ô m…ôlumat tapƒ±lmadƒ±."

/-- The fixed "no answer produced" message (line 329). -/
def noAnswerMsg : String := "Cavab yaradƒ±la bilm…ôdi."

/-- The fixed error message returned on any answer-generation failure
(line 333). -/
def answerErrorMsg : String :=
  "Cavab yaradƒ±lark…ôn x…ôta ba≈ü verdi."

/-- Record a source filename and page number into `sources_dict`
(lines 254-257), preserving insertion order as a Python dict does. -/
def addSource (dict : List (String × List Int)) (filename : String) (page : Int) :
    List (String × List Int) :=
  let d := if dict.any (fun kv => kv.1 = filename) then dict
    else dict ++ [(filename, [])]
  if 0 < page then
    d.map (fun kv =>
      if kv.1 = filename ∧ ¬ kv.2.contains page then (kv.1, kv.2 ++ [page]) else kv)
  else d

/-- The context-building loop of `answer_question` (lines 244-257):
collect the texts longer than 100 characters, tracking sources. -/
def buildContext (vector_results : List QMatch) : List String × List (String × List Int) :=
  vector_results.foldl
    (fun acc m =>
      if 100 < m.text.length then
        (acc.1 ++ [m.text], addSource acc.2 m.original_filename m.page_num)
      else acc)
    ([], [])

/-- The answering prompt (lines 265-279), with `context` and `question`
interpolated. -/
def mkPrompt (context question : String) : String :=
  "S…ôn k…ônd t…ôs…ôrr√ºfatƒ± √ºzr…ô eksperts…ôn. A≈üaƒüƒ±dakƒ± m…ôtn…ô …ôsas…ôn suala QISA v…ô KONKRET cavab ver.\n\nM∆èTN:\n"
  ++ context
  ++ "\n\nSUAL: " ++ question
  ++ "\n\nT∆èLƒ∞MAT:\n- Yalnƒ±z sualƒ±n cavabƒ±nƒ± ver\n- 2-3 c√ºml…ôd…ôn √ßox yazma\n- Konkret adlar, r…ôq…ôml…ôr v…ô faktlar bildir\n- ∆èg…ôr m…ôtnl…ôrd…ô d…ôqiq cavab yoxdursa, \"M…ôlumat tapƒ±lmadƒ±\" de\n- M…ôtnd…ôn …ôlav…ô m…ôlumat …ôlav…ô etm…ô\n\nCAVAB (qƒ±sa v…ô konkret):"

/-- Whether a line is discarded by the metadata filter (lines 299-307). -/
def isMetaLine (line : String) : Bool :=
  let ll := pyLower line
  ll.startsWith "uot"
    || (strContains ll "n…ô≈üriyyat" && line.length < 50)
    || ll.startsWith "r…ôy√ßil…ôr:"
    || ll.startsWith "professor "

/-- Insert into an ascending list (ties keep the earlier element first). -/
def insertSorted (x : Int) : List Int → List Int
  | [] => [x]
  | y :: ys => if x < y then x :: y :: ys else y :: insertSorted x ys

/-- Python `sorted` on the collected page numbers. -/
def sortInts (l : List Int) : List Int := l.foldr insertSorted []

/-- Format one `"{filename} ({pages})"` source entry (lines 316-325). -/
def formatSource (kv : String × List Int) : String :=
  if kv.2 ≠ [] then
    let pages_sorted := sortInts kv.2
    let pages_str := String.intercalate ", "
      ((pages_sorted.take 3).map (fun p => "s…ôh. " ++ toString p))
    let pages_str := if 3 < pages_sorted.length then pages_str ++ "..." else pages_str
    kv.1 ++ " (" ++ pages_str ++ ")"
  else kv.1

/-- The appended sources block (line 327). -/
def sourcesSuffix (dict : List (String × List Int)) : String :=
  "\n\nüìö **M…ônb…ôl…ôr:** "
    ++ String.intercalate " | " (dict.map formatSource)

/-- `answer_question(question)`, given the already-retrieved vector-search
matches (the Pinecone call happens upstream in `query_vector_search`) and
the Ollama chat oracle `chat` mapping the prompt to the model reply
(`.error` = the call raised, caught by the `except` branch).  The returned
boolean records whether the language-model chat call was made. -/
def answer_question (vector_results : List QMatch) (chat : String → Except String String)
    (question : String) : String × Bool :=
  let bc := buildContext vector_results
  let context_parts := bc.1
  let sources_dict := bc.2
  if context_parts = [] then (noInfoMsg, false)
  else
    let context := String.intercalate "\n\n---\n\n" (pySlice context_parts 0 5)
    let prompt := mkPrompt context question
    match chat prompt with
    | .error _ => (answerErrorMsg, true)
    | .ok content =>
      let answer := pyStrip content
      let lines := answer.splitOn "\n"
      let clean_lines := lines.filterMap (fun line =>
        if isMetaLine line then none
        else if pyStrip line ≠ "" then some (pyStrip line) else none)
      let answer := if clean_lines ≠ [] then String.intercalate "\n" clean_lines else answer
      let answer :=
        if sources_dict ≠ [] ∧ answer ≠ "" ∧ 20 < answer.length then
          answer ++ sourcesSuffix sources_dict
        else answer
      (if answer ≠ "" then answer else noAnswerMsg, true)

/-! ### `get_statistics` (graph_rag.py lines 335-360) -/

/-- The statistics dictionary returned by `get_statistics`. -/
structure Stats where
  neo4j_nodes : Int
  neo4j_relationships : Int
  pinecone_vectors : Int
deriving DecidableEq, Repr

/-- `get_statistics()`.  The three external queries (Neo4j node count,
Neo4j relationship count, Pinecone index stats) are modelled by their
outcomes; any raised exception (`.error`) is caught by the single
`try/except` and yields the hardcoded fallback counts. -/
def get_statistics (nodeCount relCount vecCount : Except String Int) : Stats :=
  match nodeCount with
  | .error _ => ⟨24, 2, 47⟩
  | .ok n =>
    match relCount with
    | .error _ => ⟨24, 2, 47⟩
    | .ok r =>
      match vecCount with
      | .error _ => ⟨24, 2, 47⟩
      | .ok v => ⟨n, r, v⟩

/-! ## Theorems -/

/-- Claim C10: `get_statistics` never raises: whenever any of its
graph-store or vector-index queries fails, it returns the fixed hardcoded
counts `{neo4j_nodes: 24, neo4j_relationships: 2, pinecone_vectors: 47}`,
a value of the same `Stats` shape as genuine statistics. -/
theorem get_statistics_fallback (nodeCount relCount vecCount : Except String Int)
    (h : (∃ e, nodeCount = .error e) ∨ (∃ e, relCount = .error e) ∨
      (∃ e, vecCount = .error e)) :
    get_statistics nodeCount relCount vecCount = ⟨24, 2, 47⟩ := by
  rcases h with ⟨e, he⟩ | ⟨e, he⟩ | ⟨e, he⟩
  · subst he; rfl
  · subst he; cases nodeCount <;> rfl
  · subst he; cases nodeCount <;> cases relCount <;> rfl

/-- Witness for C10: a failing Neo4j node-count query yields the
hardcoded statistics. -/
theorem get_statistics_fallback_witness :
    get_statistics (.error "connection refused") (.ok 5) (.ok 6) = ⟨24, 2, 47⟩ :=
  get_statistics_fallback (.error "connection refused") (.ok 5) (.ok 6)
    (Or.inl ⟨"connection refused", rfl⟩)

/-- Claim C4: `extract_entities_with_llm` never raises to its caller: on a
JSON parse failure, on any model-call error, or when the model response
contains no `{`/`}` delimited substring, it returns the empty result
`{entities: [], relationships: []}`. -/
theorem extract_entities_failure_empty (chat : Except String String)
    (loads : String → Option Extraction) (h : extractionFailure chat loads) :
    extract_entities_with_llm chat loads = emptyExtraction := by
  rcases h with ⟨e, he⟩ | ⟨content, he, hc⟩ | ⟨content, he, hc⟩ <;> subst he
  · rfl
  · simp only [extract_entities_with_llm, if_neg hc]
  · by_cases hcond : 0 ≤ pyFind content '{' ∧
        pyFind content '{' < pyRFind content '}' + 1
    · simp only [extract_entities_with_llm, if_pos hcond, hc]
    · simp only [extract_entities_with_llm, if_neg hcond]

/-- Witness for C4: a model reply with no `{`/`}` characters (and a parser
that fails on everything) yields the empty extraction result. -/
theorem extract_entities_failure_empty_witness :
    extract_entities_with_llm (.ok "cavab: JSON yoxdur") (fun _ => none) =
      emptyExtraction :=
  extract_entities_failure_empty (.ok "cavab: JSON yoxdur") (fun _ => none)
    (Or.inr (Or.inl ⟨"cavab: JSON yoxdur", rfl, by decide⟩))

/-- Helper: the attempted edges of the relationship loop do not depend on
the edge-creation oracle's outcomes. -/
theorem storeRelationships_fst (entity_ids : List (String × String))
    (rels : List Relationship) (runEdge : EdgeAttempt → Except String Unit) :
    (storeRelationships entity_ids rels runEdge).map Prod.fst =
      rels.filterMap (relAttempt entity_ids) := by
  induction rels with
  | nil => rfl
  | cons r rs ih =>
    simp only [storeRelationships, List.filterMap_cons] at ih ⊢
    cases relAttempt entity_ids r <;> simp [ih]

/-- Claim C7: a relationship whose `from` or `to` endpoint name is absent
from the batch's resolved name-to-id mapping is silently skipped: no
edge-creation operation is attempted for it; and the set of attempted edge
creations is the same whatever the edge oracle answers, so an individual
edge-creation failure never aborts the batch (nor does `store_in_neo4j`
propagate it). -/
theorem store_rel_missing_endpoint_skipped
    (entity_ids : List (String × String)) (rels : List Relationship)
    (runEdge runEdge2 : EdgeAttempt → Except String Unit) (r : Relationship)
    (mergeEntity : String → String → String → Except String (Option String))
    (entities : List Entity)
    (h : dictGet entity_ids r.«from» = none ∨ dictGet entity_ids r.«to» = none)
    (hids : buildEntityIds mergeEntity entities [] = .ok entity_ids) :
    relAttempt entity_ids r = none ∧
    (storeRelationships entity_ids rels runEdge).map Prod.fst =
      (storeRelationships entity_ids rels runEdge2).map Prod.fst ∧
    store_in_neo4j mergeEntity runEdge entities rels =
      .ok (storeRelationships entity_ids rels runEdge) := by
  refine ⟨?_, ?_, ?_⟩
  · rcases h with h | h <;> simp [relAttempt, h]
  · rw [storeRelationships_fst, storeRelationships_fst]
  · simp [store_in_neo4j, hids]

/-- Witness for C7: with an empty resolved mapping, a relationship whose
endpoints are unresolved produces no edge attempt, even with an oracle
that fails on every edge. -/
theorem store_rel_missing_endpoint_skipped_witness :
    relAttempt [] ⟨"Alternaria", "Pomidor", "AFFECTS"⟩ = none ∧
    (storeRelationships [] [⟨"Alternaria", "Pomidor", "AFFECTS"⟩]
        (fun _ => .error "edge boom")).map Prod.fst =
      (storeRelationships [] [⟨"Alternaria", "Pomidor", "AFFECTS"⟩]
        (fun _ => .ok ())).map Prod.fst ∧
    store_in_neo4j (fun _ _ _ => .ok none) (fun _ => .error "edge boom") []
        [⟨"Alternaria", "Pomidor", "AFFECTS"⟩] =
      .ok (storeRelationships [] [⟨"Alternaria", "Pomidor", "AFFECTS"⟩]
        (fun _ => .error "edge boom")) :=
  store_rel_missing_endpoint_skipped [] [⟨"Alternaria", "Pomidor", "AFFECTS"⟩]
    (fun _ => .error "edge boom") (fun _ => .ok ()) ⟨"Alternaria", "Pomidor", "AFFECTS"⟩
    (fun _ _ _ => .ok none) [] (Or.inl rfl) rfl

/-- Helper: the context-building fold leaves its accumulator untouched
when every retrieved text has at most 100 characters. -/
theorem buildContext_foldl_const (vector_results : List QMatch)
    (acc : List String × List (String × List Int))
    (h : ∀ m ∈ vector_results, m.text.length ≤ 100) :
    vector_results.foldl
      (fun acc m =>
        if 100 < m.text.length then
          (acc.1 ++ [m.text], addSource acc.2 m.original_filename m.page_num)
        else acc)
      acc = acc := by
  induction vector_results generalizing acc with
  | nil => rfl
  | cons m ms ih =>
    have hm : ¬ 100 < m.text.length := by
      have := h m (List.mem_cons_self m ms); omega
    simp only [List.foldl_cons, if_neg hm]
    exact ih acc (fun x hx => h x (List.mem_cons_of_mem m hx))

/-- Claim C5: when the vector-search results contain zero qualifying
context chunks (no retrieved record with stored text longer than 100
characters), `answer_question` returns the fixed "no information found"
message and makes no language-model chat call (the returned flag records
whether `chat` was invoked). -/
theorem answer_question_no_context (vector_results : List QMatch)
    (chat : String → Except String String) (question : String)
    (h : ∀ m ∈ vector_results, m.text.length ≤ 100) :
    answer_question vector_results chat question = (noInfoMsg, false) := by
  unfold answer_question buildContext
  rw [buildContext_foldl_const vector_results ([], []) h]
  rfl

/-- Witness for C5: two sub-100-character matches produce the fixed
message with no chat call. -/
theorem answer_question_no_context_witness :
    answer_question [⟨"qisa metn", "a.pdf", 1⟩, ⟨"", "b.pdf", 2⟩]
      (fun _ => .ok "should never be used") "Pomidor nece becerilir?" =
      (noInfoMsg, false) :=
  answer_question_no_context [⟨"qisa metn", "a.pdf", 1⟩, ⟨"", "b.pdf", 2⟩]
    (fun _ => .ok "should never be used") "Pomidor nece becerilir?"
    (by decide)

/-- Helper: pad-or-truncate always yields exactly 1024 components. -/
theorem padTruncate_length (embedding : List ℚ) :
    (padTruncate embedding).length = 1024 := by
  unfold padTruncate
  split_ifs with h1 h2
  · simp only [List.length_append, List.length_replicate]; omega
  · simp only [List.length_take]; omega
  · omega

/-- Helper: a hex digit's value is at most 15. -/
theorem hexVal_le_15 (c : Char) (v : Nat) (h : hexVal c = some v) : v ≤ 15 := by
  unfold hexVal at h
  split_ifs at h with h1 h2 h3 <;> simp at h <;> omega

/-- Helper: `int` of a single hex character. -/
theorem parseHex_one (c : Char) : parseHex [c] = hexVal c := by
  unfold parseHex
  cases h : hexVal c <;> simp [List.foldlM, h]

/-- Helper: `int` of two hex characters. -/
theorem parseHex_two (c d : Char) :
    parseHex [c, d] =
      match hexVal c, hexVal d with
      | some a, some b => some (a * 16 + b)
      | _, _ => none := by
  unfold parseHex
  cases h1 : hexVal c <;> cases h2 : hexVal d <;> simp [List.foldlM, h1, h2]

/-- Helper: the fallback component is exactly the normalisation of the
(non-wrapping) slice byte `sliceByte`, for any digest. -/
theorem fallbackComponent_eq_sliceByte (text_hash : List Char) (i : Nat) :
    fallbackComponent text_hash i =
      (sliceByte text_hash i).map
        (fun b => ((b : ℚ) / 255 * 2 - 1) + 1 / 100) := by
  unfold fallbackComponent sliceByte
  by_cases h0 : text_hash.length = 0
  · simp [h0]
  · rw [if_neg h0, if_neg h0]
    have hlen : 0 < text_hash.length := Nat.pos_of_ne_zero h0
    have hjn : i % text_hash.length < text_hash.length := Nat.mod_lt i hlen
    have hslice1 : sliceIdx ((i % text_hash.length : Nat) : Int) text_hash.length =
        i % text_hash.length := by
      unfold sliceIdx
      rw [if_neg (by omega), Int.toNat_natCast]
      omega
    have hslice2 : sliceIdx (((i % text_hash.length : Nat) : Int) + 2) text_hash.length =
        min (i % text_hash.length + 2) text_hash.length := by
      have hcast : ((i % text_hash.length : Nat) : Int) + 2 =
          ((i % text_hash.length + 2 : Nat) : Int) := by push_cast; ring
      unfold sliceIdx
      rw [hcast, if_neg (by omega), Int.toNat_natCast]
    by_cases hlast : i % text_hash.length + 1 = text_hash.length
    · -- last position: the slice holds a single character
      have hdrop : text_hash.drop (i % text_hash.length) =
          [text_hash[i % text_hash.length]] := by
        rw [List.drop_eq_getElem_cons hjn]
        have hnil : text_hash.drop (i % text_hash.length + 1) = [] := by
          rw [List.drop_eq_nil_iff]; omega
        rw [hnil]
      have htake : min (i % text_hash.length + 2) text_hash.length -
          i % text_hash.length = 1 := by omega
      rw [if_pos hlast]
      simp only [pySlice, hslice1, hslice2, htake, hdrop]
      have hone : List.take 1 [text_hash[i % text_hash.length]] =
          [text_hash[i % text_hash.length]] := rfl
      rw [hone, parseHex_one, List.getD_eq_getElem text_hash '0' hjn]
    · -- interior position: the slice holds two characters
      have hj1 : i % text_hash.length + 1 < text_hash.length := by omega
      have hdrop : (text_hash.drop (i % text_hash.length)).take 2 =
          [text_hash[i % text_hash.length], text_hash[i % text_hash.length + 1]] := by
        rw [List.drop_eq_getElem_cons hjn, List.drop_eq_getElem_cons hj1]
        rfl
      have htake : min (i % text_hash.length + 2) text_hash.length -
          i % text_hash.length = 2 := by omega
      rw [if_neg hlast]
      simp only [pySlice, hslice1, hslice2, htake, hdrop]
      rw [parseHex_two, List.getD_eq_getElem text_hash '0' hjn,
        List.getD_eq_getElem text_hash '0' hj1]

/-- Helper: on a well-formed digest the slice byte always exists and is a
byte value. -/
theorem sliceByte_valid (text_hash : List Char) (h : validDigest text_hash)
    (i : Nat) : ∃ b, sliceByte text_hash i = some b ∧ b ≤ 255 := by
  obtain ⟨hlen, hhex⟩ := h
  have h0 : ¬ (text_hash.length = 0) := by omega
  have hjn : i % text_hash.length < text_hash.length :=
    Nat.mod_lt i (by omega)
  have hxj : ∃ a, hexVal text_hash[i % text_hash.length] = some a ∧ a ≤ 15 := by
    have hm := hhex text_hash[i % text_hash.length] (List.getElem_mem hjn)
    obtain ⟨a, ha⟩ := Option.isSome_iff_exists.mp hm
    exact ⟨a, ha, hexVal_le_15 _ _ ha⟩
  unfold sliceByte
  rw [if_neg h0]
  by_cases hlast : i % text_hash.length + 1 = text_hash.length
  · obtain ⟨a, ha, hale⟩ := hxj
    refine ⟨a, ?_, by omega⟩
    rw [if_pos hlast, List.getD_eq_getElem text_hash '0' hjn, ha]
  · have hj1 : i % text_hash.length + 1 < text_hash.length := by omega
    obtain ⟨a, ha, hale⟩ := hxj
    have hxj1 : ∃ b, hexVal text_hash[i % text_hash.length + 1] = some b ∧ b ≤ 15 := by
      have hm := hhex text_hash[i % text_hash.length + 1] (List.getElem_mem hj1)
      obtain ⟨b, hb⟩ := Option.isSome_iff_exists.mp hm
      exact ⟨b, hb, hexVal_le_15 _ _ hb⟩
    obtain ⟨b, hb, hble⟩ := hxj1
    refine ⟨a * 16 + b, ?_, by omega⟩
    rw [if_neg hlast, List.getD_eq_getElem text_hash '0' hjn,
      List.getD_eq_getElem text_hash '0' hj1, ha, hb]

/-- Helper: sequencing a list of `some`s succeeds and preserves length. -/
theorem collectSome_length {α : Type} (l : List (Option α))
    (h : ∀ o ∈ l, o.isSome) :
    ∃ vs, collectSome l = some vs ∧ vs.length = l.length := by
  induction l with
  | nil => exact ⟨[], rfl, rfl⟩
  | cons o os ih =>
    obtain ⟨v, hv⟩ := Option.isSome_iff_exists.mp (h o (List.mem_cons_self o os))
    obtain ⟨vs, hvs, hlen⟩ := ih (fun x hx => h x (List.mem_cons_of_mem o hx))
    subst hv
    exact ⟨v :: vs, by simp only [collectSome, hvs], by simp [hlen]⟩

/-- Helper: on a well-formed digest the fallback embedding is produced
without an exception and has exactly 1024 components. -/
theorem fallbackEmbedding_valid (text_hash : List Char) (h : validDigest text_hash) :
    ∃ v, fallbackEmbedding text_hash = some v ∧ v.length = 1024 := by
  unfold fallbackEmbedding
  have hall : ∀ o ∈ (List.range 1024).map (fallbackComponent text_hash), o.isSome := by
    intro o ho
    obtain ⟨i, _, rfl⟩ := List.mem_map.mp ho
    obtain ⟨b, hb, _⟩ := sliceByte_valid text_hash h i
    rw [fallbackComponent_eq_sliceByte, hb]
    rfl
  obtain ⟨vs, hvs, hlen⟩ := collectSome_length
    ((List.range 1024).map (fallbackComponent text_hash)) hall
  exact ⟨vs, hvs, by simpa using hlen⟩

/-- Helper: `Char.ofNat` round-trips on valid code points (auxiliary). -/
theorem toNat_ofNatAux (n : Nat) (h : n.isValidChar) :
    (Char.ofNatAux n h).toNat = n := by
  simp only [Char.ofNatAux, Char.toNat, UInt32.toNat]
  simp [BitVec.toNat_ofNatLt]

/-- Helper: `Char.ofNat` round-trips on valid code points. -/
theorem toNat_ofNat_valid (n : Nat) (h : n.isValidChar) :
    (Char.ofNat n).toNat = n := by
  simp only [Char.ofNat, dif_pos h]
  exact toNat_ofNatAux n h

/-- Helper: characters with different code points differ. -/
theorem char_ne_of_toNat_ne {c d : Char} (h : c.toNat ≠ d.toNat) : c ≠ d :=
  fun he => h (he ▸ rfl)

/-- Helper: upper-casing a character that is neither a space nor a pipe
yields a schema-safe label character. -/
theorem pyCharUpper_good (x : Char) (hs : x ≠ ' ') (hp : x ≠ '|') :
    relLabelCharOK (pyCharUpper x) = true := by
  have hgoal : pyCharUpper x ≠ ' ' ∧ pyCharUpper x ≠ '|' ∧
      ¬ (97 ≤ (pyCharUpper x).toNat ∧ (pyCharUpper x).toNat ≤ 122) := by
    unfold pyCharUpper
    split_ifs with h
    · have hv : (Char.ofNat (x.toNat - 32)).toNat = x.toNat - 32 :=
        toNat_ofNat_valid _ (Or.inl (by omega))
      have hsp : (' ' : Char).toNat = 32 := rfl
      have hpp : ('|' : Char).toNat = 124 := rfl
      exact ⟨char_ne_of_toNat_ne (by omega), char_ne_of_toNat_ne (by omega),
        by omega⟩
    · exact ⟨hs, hp, h⟩
  obtain ⟨h1, h2, h3⟩ := hgoal
  simp only [relLabelCharOK, Bool.and_eq_true, Bool.not_eq_true', beq_eq_false_iff_ne,
    ne_eq]
  refine ⟨⟨h1, h2⟩, ?_⟩
  rw [Bool.and_eq_false_iff]
  rcases Nat.lt_or_ge x.toNat 97 with hlt | hge
  · by_cases hc : 97 ≤ (pyCharUpper x).toNat
    · right; simp only [decide_eq_false_iff_not, Nat.not_le]; omega
    · left; simp only [decide_eq_false_iff_not]; omega
  · by_cases hc : 97 ≤ (pyCharUpper x).toNat
    · right; simp only [decide_eq_false_iff_not, Nat.not_le]; omega
    · left; simp only [decide_eq_false_iff_not]; omega

/-- Helper: lengths pass through `String.mk`. -/
theorem length_mk (l : List Char) : (String.mk l).length = l.length := rfl

/-- Helper: replacing then upper-casing preserves the length. -/
theorem sanitize_rel_core_length (t : String) :
    (pyUpper (pyReplace (pyReplace t ' ' '_') '|' '_')).length = t.length := by
  simp only [pyUpper, pyReplace, length_mk, String.toList, List.length_map]
  rfl

/-- Helper: every character of a stripped string is a character of the
original string. -/
theorem pyStrip_subset (s : String) (c : Char) (h : c ∈ (pyStrip s).toList) :
    c ∈ s.toList := by
  simp only [pyStrip, String.toList] at h
  have h1 : c ∈ (s.toList.dropWhile isPySpace).reverse.dropWhile isPySpace := by
    simpa using h
  have h2 : c ∈ (s.toList.dropWhile isPySpace).reverse :=
    (List.dropWhile_sublist _).subset h1
  have h3 : c ∈ s.toList.dropWhile isPySpace := by simpa using h2
  exact (List.dropWhile_sublist _).subset h3

/-- Helper: the entity-type default guard either yields `Entity` or keeps
the string, which then starts with a letter. -/
theorem entityTypeDefault_cases (et : String) :
    entityTypeDefault et = "Entity" ∨
      (entityTypeDefault et = et ∧ startsAlpha et) := by
  unfold entityTypeDefault
  cases h : et.toList with
  | nil => left; rfl
  | cons c rest =>
    by_cases ha : c.isAlpha
    · right
      refine ⟨?_, ?_⟩
      · show (if ¬ c.isAlpha = true then "Entity" else et) = et
        rw [if_neg (by simp [ha])]
      · simp only [startsAlpha, h]
        exact ha
    · left
      show (if ¬ c.isAlpha = true then "Entity" else et) = "Entity"
      rw [if_pos (by simp [ha])]

/-- Claim C1: for every input text, `generate_embedding` returns a vector
of exactly 1024 numeric components: when the embedding model call
succeeds its native vector is zero-padded if shorter than 1024 and
truncated if longer, and when the call fails the hash-based fallback
vector also has exactly 1024 components. -/
theorem generate_embedding_length_1024 (response : Except String (List ℚ))
    (text_hash : List Char) (h : validDigest text_hash) :
    ∃ v, generate_embedding response text_hash = some v ∧ v.length = 1024 := by
  cases response with
  | ok embedding => exact ⟨padTruncate embedding, rfl, padTruncate_length embedding⟩
  | error e => exact fallbackEmbedding_valid text_hash h

/-- Witness for C1, exercising the boundary dimensions 1023, 1024 and 1025
on the success path and the fallback path on a concrete digest. -/
theorem generate_embedding_length_1024_witness :
    (∃ v, generate_embedding (.ok (List.replicate 1023 (1 / 2)))
      digestOfEmptyString = some v ∧ v.length = 1024) ∧
    (∃ v, generate_embedding (.ok (List.replicate 1024 (1 / 2)))
      digestOfEmptyString = some v ∧ v.length = 1024) ∧
    (∃ v, generate_embedding (.ok (List.replicate 1025 (1 / 2)))
      digestOfEmptyString = some v ∧ v.length = 1024) ∧
    (∃ v, generate_embedding (.error "model down")
      digestOfEmptyString = some v ∧ v.length = 1024) := by
  have hd : validDigest digestOfEmptyString := by decide
  exact ⟨generate_embedding_length_1024 (.ok (List.replicate 1023 (1 / 2))) _ hd,
    generate_embedding_length_1024 (.ok (List.replicate 1024 (1 / 2))) _ hd,
    generate_embedding_length_1024 (.ok (List.replicate 1025 (1 / 2))) _ hd,
    generate_embedding_length_1024 (.error "model down") _ hd⟩

/-- Claim C8: the fallback (hash-based) embedding is pure and
deterministic: it is a function only of the SHA-256 digest of the input
text, so two calls on identical text yield the identical vector, of
length 1024. -/
theorem fallback_embedding_deterministic (sha256hex : String → List Char)
    (t1 t2 : String) (heq : t1 = t2) (h : validDigest (sha256hex t1)) :
    fallbackEmbedding (sha256hex t1) = fallbackEmbedding (sha256hex t2) ∧
    ∃ v, fallbackEmbedding (sha256hex t1) = some v ∧ v.length = 1024 :=
  ⟨by rw [heq], fallbackEmbedding_valid _ h⟩

/-- Witness for C8 at a concrete hash function and text. -/
theorem fallback_embedding_deterministic_witness :
    fallbackEmbedding ((fun _ => digestOfEmptyString) "pomidor") =
      fallbackEmbedding ((fun _ => digestOfEmptyString) "pomidor") ∧
    ∃ v, fallbackEmbedding ((fun _ => digestOfEmptyString) "pomidor") = some v ∧
      v.length = 1024 := by
  have hd : validDigest digestOfEmptyString := by decide
  exact fallback_embedding_deterministic (fun _ => digestOfEmptyString)
    "pomidor" "pomidor" rfl hd

/-- Counterexample to C9 as stated: on the digest of the empty string the
component at index 63 reads the 2-character slice starting at the LAST
digest position, which holds a single hex character (no cyclic wrap), so
it differs from the claimed cyclically-wrapping reading. -/
theorem fallback_component_not_cyclic :
    validDigest digestOfEmptyString ∧
    fallbackComponent digestOfEmptyString 63 ≠
      fallbackComponentCyclic digestOfEmptyString 63 := by
  refine ⟨by decide, ?_⟩
  have h5 : sliceByte digestOfEmptyString 63 = some 5 := by decide
  have h1 : fallbackComponent digestOfEmptyString 63 =
      some ((5 : ℚ) / 255 * 2 - 1 + 1 / 100) := by
    rw [fallbackComponent_eq_sliceByte, h5]
    norm_num [Option.map]
  have ha : digestOfEmptyString.getD (63 % digestOfEmptyString.length) '0' = '5' := by
    decide
  have hb : digestOfEmptyString.getD
      ((63 % digestOfEmptyString.length + 1) % digestOfEmptyString.length) '0' = 'e' := by
    decide
  have h2 : fallbackComponentCyclic digestOfEmptyString 63 =
      some ((94 : ℚ) / 255 * 2 - 1 + 1 / 100) := by
    unfold fallbackComponentCyclic
    rw [if_neg (show ¬ (digestOfEmptyString.length = 0) by decide), ha, hb]
    have h5v : hexVal '5' = some 5 := by decide
    have hev : hexVal 'e' = some 14 := by decide
    rw [h5v, hev]
    norm_num
  rw [h1, h2]
  intro hcontra
  rw [Option.some_inj] at hcontra
  norm_num at hcontra

/-- Claim C9 (amended): each component `i` of the fallback embedding takes
the 2-character slice of the SHA-256 hex digest starting at `i mod 64`;
at the digest's last position that slice holds only the final hex
character (no cyclic wrap), read as a value 0..15; the byte value `b`
(at most 255) is normalised to `b/255*2 - 1 + 0.01`, which lies in
`[-0.99, 1.01]`. -/
theorem fallback_component_formula (text_hash : List Char)
    (h : validDigest text_hash) (i : Nat) :
    ∃ b, sliceByte text_hash i = some b ∧ b ≤ 255 ∧
      fallbackComponent text_hash i = some ((b : ℚ) / 255 * 2 - 1 + 1 / 100) ∧
      -(99 / 100 : ℚ) ≤ (b : ℚ) / 255 * 2 - 1 + 1 / 100 ∧
      (b : ℚ) / 255 * 2 - 1 + 1 / 100 ≤ 101 / 100 := by
  obtain ⟨b, hb, hble⟩ := sliceByte_valid text_hash h i
  have hb255 : (b : ℚ) ≤ 255 := by exact_mod_cast hble
  have hb0 : (0 : ℚ) ≤ (b : ℚ) := Nat.cast_nonneg b
  have hdiv1 : (b : ℚ) / 255 ≤ 1 := by
    rw [div_le_one (by norm_num)]; exact hb255
  have hdiv0 : (0 : ℚ) ≤ (b : ℚ) / 255 := by positivity
  refine ⟨b, hb, hble, ?_, by linarith, by linarith⟩
  rw [fallbackComponent_eq_sliceByte, hb]
  rfl

/-- Witness for C9 (amended) at a concrete digest and component index. -/
theorem fallback_component_formula_witness :
    ∃ b, sliceByte digestOfEmptyString 0 = some b ∧ b ≤ 255 ∧
      fallbackComponent digestOfEmptyString 0 =
        some ((b : ℚ) / 255 * 2 - 1 + 1 / 100) ∧
      -(99 / 100 : ℚ) ≤ (b : ℚ) / 255 * 2 - 1 + 1 / 100 ∧
      (b : ℚ) / 255 * 2 - 1 + 1 / 100 ≤ 101 / 100 :=
  fallback_component_formula digestOfEmptyString (by decide) 0

/-- Counterexample to C6 as stated: an LLM-provided entity type that
starts with a letter passes through the sanitiser completely unchanged,
so raw LLM text containing spaces and query metacharacters (here `)` and
a space) does reach the schema-label position unescaped. -/
theorem entity_type_unescaped_cex :
    sanitize_entity_type (some "Crop) DETACH DELETE (m") =
      "Crop) DETACH DELETE (m" ∧
    ' ' ∈ "Crop) DETACH DELETE (m".toList ∧
    ')' ∈ "Crop) DETACH DELETE (m".toList := by
  refine ⟨by decide, by decide, by decide⟩

/-- Claim C6 (amended): relationship types are sanitised before reaching
the schema label — spaces and pipes are replaced by underscores, the
result is upper-cased (no lowercase ASCII remains), is at least 2
characters long, and defaults to `RELATED_TO` when the input is shorter
than 2 characters; entity types are only lightly filtered — the result
either is the default `Entity` or starts with a letter and contains no
pipe, but (as the counterexample shows) it may otherwise be the raw
LLM-provided string. -/
theorem sanitize_label_guarantees (t : String) (o : Option String) :
    (sanitize_rel_type t).toList.all relLabelCharOK = true ∧
    2 ≤ (sanitize_rel_type t).length ∧
    (sanitize_rel_type t = "RELATED_TO" ∨ 2 ≤ t.length) ∧
    (sanitize_entity_type o = "Entity" ∨
      (startsAlpha (sanitize_entity_type o) ∧
        (sanitize_entity_type o).toList.all (fun c => !(c == '|')) = true)) := by
  refine ⟨?_, ?_, ?_, ?_⟩
  · by_cases hdef : (pyUpper (pyReplace (pyReplace t ' ' '_') '|' '_')) = "" ∨
        (pyUpper (pyReplace (pyReplace t ' ' '_') '|' '_')).length < 2
    · unfold sanitize_rel_type
      rw [if_pos hdef]
      decide
    · unfold sanitize_rel_type
      rw [if_neg hdef, List.all_eq_true]
      intro c hc
      have hc' : c ∈ ((t.toList.map (fun x => if x = ' ' then '_' else x)).map
          (fun x => if x = '|' then '_' else x)).map pyCharUpper := hc
      obtain ⟨x, hx, rfl⟩ := List.mem_map.mp hc'
      obtain ⟨z, hz, rfl⟩ := List.mem_map.mp hx
      obtain ⟨y, hy, rfl⟩ := List.mem_map.mp hz
      by_cases hsp : y = ' '
      · subst hsp
        decide
      · by_cases hpp : y = '|'
        · subst hpp
          decide
        · rw [if_neg hsp, if_neg hpp]
          exact pyCharUpper_good y hsp hpp
  · by_cases hdef : (pyUpper (pyReplace (pyReplace t ' ' '_') '|' '_')) = "" ∨
        (pyUpper (pyReplace (pyReplace t ' ' '_') '|' '_')).length < 2
    · unfold sanitize_rel_type
      rw [if_pos hdef]
      decide
    · unfold sanitize_rel_type
      rw [if_neg hdef]
      push_neg at hdef
      omega
  · by_cases hlen : t.length < 2
    · left
      unfold sanitize_rel_type
      rw [if_pos (Or.inr (by rw [sanitize_rel_core_length]; exact hlen))]
    · right
      omega
  · unfold sanitize_entity_type
    rcases entityTypeDefault_cases
        (if (o.getD "Entity").toList.contains '|'
         then pyStrip (String.mk ((o.getD "Entity").toList.takeWhile (· ≠ '|')))
         else o.getD "Entity") with h | ⟨he, hs⟩
    · left
      exact h
    · right
      refine ⟨by rw [he]; exact hs, ?_⟩
      rw [he, List.all_eq_true]
      intro c hc
      simp only [Bool.not_eq_true', beq_eq_false_iff_ne, ne_eq]
      by_cases hcontains : (o.getD "Entity").toList.contains '|'
      · rw [if_pos hcontains] at hc
        have h1 : c ∈ (o.getD "Entity").toList.takeWhile (· ≠ '|') :=
          pyStrip_subset _ _ hc
        have h2 := List.mem_takeWhile_imp h1
        simpa using h2
      · rw [if_neg hcontains] at hc
        intro heq
        subst heq
        exact hcontains (List.elem_eq_true_of_mem hc)

/-- Witness for C6 (amended) on a concrete relationship type and entity
type. -/
theorem sanitize_label_guarantees_witness :
    (sanitize_rel_type "affects  badly|often").toList.all relLabelCharOK = true ∧
    2 ≤ (sanitize_rel_type "affects  badly|often").length ∧
    (sanitize_rel_type "affects  badly|often" = "RELATED_TO" ∨
      2 ≤ ("affects  badly|often" : String).length) ∧
    (sanitize_entity_type (some "Crop|Disease") = "Entity" ∨
      (startsAlpha (sanitize_entity_type (some "Crop|Disease")) ∧
        (sanitize_entity_type (some "Crop|Disease")).toList.all
          (fun c => !(c == '|')) = true)) :=
  sanitize_label_guarantees "affects  badly|often" (some "Crop|Disease")

/-- Helper: a slice starting at 0 whose end bound is at least the list
length is the whole list. -/
theorem pySlice_all {α : Type} (xs : List α) (b : Int)
    (hb : (xs.length : Int) ≤ b) : pySlice xs 0 b = xs := by
  unfold pySlice sliceIdx
  rw [if_neg (by omega), if_neg (by omega)]
  have h2 : min (Int.toNat 0) xs.length = 0 := by simp
  have h3 : min b.toNat xs.length = xs.length := by
    have : xs.length ≤ b.toNat := by omega
    omega
  rw [h2, h3, Nat.sub_zero, List.drop_zero, List.take_length]

/-- Helper: when the window advance `chunk_size − overlap` is not
positive and a word remains, the chunking loop exhausts EVERY fuel:
the Python `while` loop never terminates. -/
theorem chunkLoop_diverges (words : List String) (chunk_size overlap : Nat)
    (page_num : Int) (hadv : (chunk_size : Int) - (overlap : Int) ≤ 0)
    (fuel : Nat) :
    ∀ i : Int, i < (words.length : Int) →
      chunkLoop words chunk_size overlap page_num i fuel = none := by
  induction fuel with
  | zero => intro i hi; rfl
  | succ f ih =>
    intro i hi
    have hi' : i + ((chunk_size : Int) - (overlap : Int)) < (words.length : Int) := by
      omega
    simp only [chunkLoop]
    rw [if_pos hi, ih _ hi']

/-- Claim C3 (showing the code bug): with `overlap = chunk_size = 600` on
the non-empty page `"hello world"`, `chunk_text_with_pages` exhausts
every fuel — the window start never advances, so the Python loop runs
forever instead of being rejected or terminating. -/
theorem chunk_overlap_eq_size_diverges (fuel : Nat) :
    chunk_text_with_pages [⟨"hello world", 1⟩] 600 600 fuel = none := by
  have h := chunkLoop_diverges (pySplit "hello world") 600 600 1 (by norm_num)
    fuel 0 (by decide)
  simp only [chunk_text_with_pages, h]

/-- Counterexample to C2 as stated: `doubleSpacedPage` satisfies the
claim's hypotheses (its word count, 2, is at most `chunk_size` and its
trimmed length, 62, exceeds 50), and chunking does yield exactly one
chunk — but the chunk text is the words re-joined with SINGLE spaces,
which differs from the trimmed page text. -/
theorem chunk_trimmed_text_cex :
    50 < (pyStrip doubleSpacedPage).length ∧
    (pySplit doubleSpacedPage).length ≤ 600 ∧
    chunk_text_with_pages [⟨doubleSpacedPage, 1⟩] 600 100 5 =
      some [⟨"aaaaaaaaaaaaaaaaaaaaaaaaaaaaaa bbbbbbbbbbbbbbbbbbbbbbbbbbbbbb", 1⟩] ∧
    "aaaaaaaaaaaaaaaaaaaaaaaaaaaaaa bbbbbbbbbbbbbbbbbbbbbbbbbbbbbb" ≠
      pyStrip doubleSpacedPage := by
  refine ⟨by decide, by decide, by decide, by decide⟩

/-- Claim C2 (amended): for every page whose word count is at most
`chunk_size − overlap` (with `overlap < chunk_size`), and enough fuel for
the two loop iterations, chunking yields exactly one chunk whose text is
the page's words re-joined with single spaces if that text's stripped
length exceeds 50 characters, and zero chunks otherwise. -/
theorem chunk_single_window (text : String) (p : Int)
    (chunk_size overlap fuel : Nat)
    (h1 : overlap < chunk_size)
    (h2 : (pySplit text).length ≤ chunk_size - overlap)
    (hf : 2 ≤ fuel) :
    chunk_text_with_pages [⟨text, p⟩] chunk_size overlap fuel =
      some (if 50 < (pyStrip (String.intercalate " " (pySplit text))).length
            then [⟨String.intercalate " " (pySplit text), p⟩] else []) := by
  obtain ⟨f, rfl⟩ : ∃ f, fuel = f + 2 := ⟨fuel - 2, by omega⟩
  have key : chunkLoop (pySplit text) chunk_size overlap p 0 (f + 2) =
      some (if 50 < (pyStrip (String.intercalate " " (pySplit text))).length
            then [⟨String.intercalate " " (pySplit text), p⟩] else []) := by
    by_cases hnil : pySplit text = []
    · rw [hnil]
      simp only [chunkLoop]
      rw [if_neg (by norm_num)]
      rw [if_neg (by decide)]
    · have hlen : 0 < (pySplit text).length := List.length_pos.mpr hnil
      have hslice : pySlice (pySplit text) 0 (0 + (chunk_size : Int)) =
          pySplit text := by
        apply pySlice_all
        omega
      simp only [chunkLoop]
      rw [if_pos (by exact_mod_cast hlen)]
      rw [if_neg (show ¬ (0 + ((chunk_size : Int) - (overlap : Int)) <
        ((pySplit text).length : Int)) by omega)]
      rw [hslice]
      split_ifs <;> rfl
  simp only [chunk_text_with_pages, key]
  split_ifs <;> rfl

/-- Witness for C2 (amended) on a concrete page, chunk size and overlap. -/
theorem chunk_single_window_witness :
    chunk_text_with_pages
      [⟨"  pomidor bitkisi uzre yetisdirme qaydalari ve xestelikden qorunma usullari  ", 3⟩]
      600 100 5 =
      some (if 50 < (pyStrip (String.intercalate " " (pySplit
          "  pomidor bitkisi uzre yetisdirme qaydalari ve xestelikden qorunma usullari  "))).length
        then [⟨String.intercalate " " (pySplit
          "  pomidor bitkisi uzre yetisdirme qaydalari ve xestelikden qorunma usullari  "), 3⟩]
        else []) :=
  chunk_single_window
    "  pomidor bitkisi uzre yetisdirme qaydalari ve xestelikden qorunma usullari  "
    3 600 100 5 (by decide) (by decide) (by decide)

end GraphRag
